import Mathlib

/-!
Shallow embedding of `selfdrive/controls/lib/events.py`: the event/alert
arbitration engine (class `Events`, class `Alert`, the module constants it
uses) together with theorems checking the natural-language specification
against it.

Modelling conventions:
* `EventId` (Python ints from the `EventName` enum) is `Nat`; categories
  (the `ET` string constants) are `String`.
* Python dicts that the code indexes are association lists
  (`List (key × value)`) with `List.lookup`; `d[k]` (which can raise
  `KeyError`) is an explicit `Option`/`Except` lookup, `d.get(k, default)`
  is `(List.lookup k d).getD default`.
* Machine floats `DT_CTRL` (= 0.01 s) and `creation_delay` are modelled as
  exact rationals.
* Fallible code (unguarded dict indexing, alert callbacks that can raise)
  lives in `Except PyErr`; dynamic alert-callback results are
  `Ctx → Except PyErr Alert`, and `create_alerts` propagates their errors
  exactly as the Python call `alert(*callback_args)` would.
* The catalog `EVENTS` and the enum-derived name table `EVENT_NAME` are
  module-level constants in Python; here they are explicit parameters so
  theorems quantify over catalog contents.  `EVENT_NAME` is derived from
  the external cereal schema (covering every id the catalog uses), so it
  is modelled as a total function `EventId → String`.
-/

abbrev EventId := Nat

abbrev Category := String

/-- `DT_CTRL` from `openpilot.common.realtime`: the control-loop tick
duration, 0.01 seconds, as an exact rational. -/
def DT_CTRL : ℚ := 1 / 100

/-- The flat field set of class `Alert` (events.py lines 111-138).
`alertType` and `eventType` are the provenance fields initialised to
`""` / `None` by `__init__` and stamped by `create_alerts`. -/
structure Alert where
  alertText1 : String
  alertText2 : String
  alertStatus : Nat
  alertSize : Nat
  priority : Nat
  visualAlert : Nat
  audibleAlert : Nat
  duration : Int
  alertRate : ℚ
  creationDelay : ℚ
  alertType : String
  eventType : Option Category
deriving DecidableEq, Repr

/-- A Python exception as observed at the `create_alerts` boundary:
either a `KeyError` from an unguarded dict index, or an arbitrary
exception raised by an alert callback. -/
inductive PyErr where
  | keyError (k : EventId)
  | exc (msg : String)
deriving DecidableEq, Repr

/-- A catalog entry value: either a ready `Alert` instance or an alert
callback (the `isinstance(alert, Alert)` test in `create_alerts`
distinguishes the two). `Ctx` stands for the tuple of callback
arguments. -/
inductive AlertSpec (Ctx : Type) where
  | fixed (a : Alert)
  | dynamic (f : Ctx → Except PyErr Alert)

/-- The module-level `EVENTS` dict: event id → (event type → alert spec),
as nested association lists. -/
abbrev Catalog (Ctx : Type) := List (EventId × List (Category × AlertSpec Ctx))

/-- The key set of the catalog (`EVENTS.keys()`). -/
def catalogKeys {Ctx : Type} (EVENTS : Catalog Ctx) : List EventId :=
  EVENTS.map Prod.fst

/-- One record produced by `car.CarEvent.new_message()` in `to_msg`:
the event name plus the set of event-type boolean flags that were set. -/
structure CarEvent where
  name : EventId
  flags : List Category
deriving DecidableEq, Repr

/-- The mutable state of class `Events` (events.py lines 52-56):
the ordered active list, the ordered static list, and the per-event
counter dict. -/
structure Events where
  events : List EventId
  static_events : List EventId
  event_counters : List (EventId × Nat)
deriving DecidableEq, Repr

/-- `bisect.insort` on an ascending `list[int]`: insert `x` after any
entries equal to it, keeping the list sorted. -/
def insort (x : EventId) : List EventId → List EventId
  | [] => [x]
  | y :: ys => if x < y then x :: y :: ys else y :: insort x ys

/-- `Events.__init__`: empty active and static lists,
`dict.fromkeys(EVENTS.keys(), 0)` for the counters. -/
def Events.init {Ctx : Type} (EVENTS : Catalog Ctx) : Events :=
  { events := [], static_events := [],
    event_counters := (catalogKeys EVENTS).map (fun k => (k, 0)) }

/-- `Events.add` (lines 65-68): `bisect.insort` into `static_events`
when `static`, and always `bisect.insort` into `events`.  There is no
membership or catalog check. -/
def Events.add (s : Events) (event_name : EventId) (static : Bool) : Events :=
  { s with
    static_events := if static then insort event_name s.static_events else s.static_events,
    events := insort event_name s.events }

/-- `Events.clear` (lines 70-72): rebuild the counter dict over its own
keys — `+1` for keys in the (old) active list, `0` otherwise — then
replace the active list with a copy of the static list. -/
def Events.clear (s : Events) : Events :=
  { s with
    event_counters :=
      s.event_counters.map (fun kv => (kv.1, if kv.1 ∈ s.events then kv.2 + 1 else 0)),
    events := s.static_events }

/-- `Events.contains` (lines 74-75):
`any(event_type in EVENTS.get(e, {}) for e in self.events)`. -/
def Events.contains {Ctx : Type} (EVENTS : Catalog Ctx) (s : Events)
    (event_type : Category) : Bool :=
  s.events.any (fun e =>
    ((List.lookup e EVENTS).getD []).any (fun p => p.1 == event_type))

/-- The `isinstance(alert, Alert)` dispatch inside `create_alerts`
(lines 86-88): a ready `Alert` is used as is, a callback is invoked with
the callback arguments and may raise. -/
def materializeAlert {Ctx : Type} (callback_args : Ctx) :
    AlertSpec Ctx → Except PyErr Alert
  | .fixed a => .ok a
  | .dynamic f => f callback_args

/-- The provenance stamping in `create_alerts` (lines 91-92):
`alert.alert_type = f"{EVENT_NAME[e]}/{et}"; alert.event_type = et`. -/
def stampAlert (a : Alert) (ename : String) (et : Category) : Alert :=
  { a with alertType := ename ++ "/" ++ et, eventType := some et }

/-- The inner `for et in event_types` loop of `create_alerts` for one
active event `e` whose catalog entry is `types`: skip event types absent
from the entry, materialize the alert (possibly raising), read the
event's counter (`self.event_counters[e]`, a `KeyError` if absent),
apply the delay gate `DT_CTRL * (counter + 1) >= alert.creation_delay`,
and stamp and emit the alert when the gate passes. -/
def alertsForEvent {Ctx : Type} (callback_args : Ctx) (e : EventId)
    (counters : List (EventId × Nat)) (types : List (Category × AlertSpec Ctx))
    (ename : String) : List Category → Except PyErr (List Alert)
  | [] => .ok []
  | et :: rest =>
    match List.lookup et types with
    | none => alertsForEvent callback_args e counters types ename rest
    | some spec =>
      match materializeAlert callback_args spec with
      | .error err => .error err
      | .ok alert =>
        match List.lookup e counters with
        | none => .error (.keyError e)
        | some cnt =>
          match alertsForEvent callback_args e counters types ename rest with
          | .error err => .error err
          | .ok tail =>
            if DT_CTRL * ((cnt : ℚ) + 1) ≥ alert.creationDelay then
              .ok (stampAlert alert ename et :: tail)
            else
              .ok tail

/-- The outer `for e in self.events` loop of `create_alerts`:
`EVENTS[e]` is an unguarded index (a `KeyError` when `e` is not a
catalog key), then the inner loop runs for `e`. -/
def alertsGo {Ctx : Type} (EVENTS : Catalog Ctx) (EVENT_NAME : EventId → String)
    (counters : List (EventId × Nat)) (event_types : List Category)
    (callback_args : Ctx) : List EventId → Except PyErr (List Alert)
  | [] => .ok []
  | e :: es =>
    match List.lookup e EVENTS with
    | none => .error (.keyError e)
    | some types =>
      match alertsForEvent callback_args e counters types (EVENT_NAME e) event_types with
      | .error err => .error err
      | .ok here =>
        match alertsGo EVENTS EVENT_NAME counters event_types callback_args es with
        | .error err => .error err
        | .ok rest => .ok (here ++ rest)

/-- `Events.create_alerts` (lines 77-94), with the Python exception
behaviour made explicit in `Except PyErr`. -/
def Events.create_alerts {Ctx : Type} (EVENTS : Catalog Ctx)
    (EVENT_NAME : EventId → String) (s : Events) (event_types : List Category)
    (callback_args : Ctx) : Except PyErr (List Alert) :=
  alertsGo EVENTS EVENT_NAME s.event_counters event_types callback_args s.events

/-- `Events.add_from_msg` (lines 96-98): for each received record,
`bisect.insort(self.events, e.name.raw)` — only the name is read, the
category flags of the record are ignored. -/
def Events.add_from_msg (s : Events) (msgs : List CarEvent) : Events :=
  { s with events := msgs.foldl (fun l e => insort e.name l) s.events }

/-- `Events.to_msg` (lines 100-108): one record per active id, carrying
the id and a flag for every event type of its catalog entry
(`EVENTS.get(event_name, {})`, so an unknown id yields no flags). -/
def Events.to_msg {Ctx : Type} (EVENTS : Catalog Ctx) (s : Events) : List CarEvent :=
  s.events.map (fun event_name =>
    { name := event_name,
      flags := ((List.lookup event_name EVENTS).getD []).map Prod.fst })

/-- `Alert.__gt__` (lines 143-146): comparison is by `priority` alone
(the non-`Alert` branch is vacuous under typed arguments). -/
def Alert.gt (a b : Alert) : Bool := a.priority > b.priority

/-- Modelled from the spec: `AlertArbiter.pickHighest(alerts) → Alert?`
(spec §4.4) is not part of `events.py` (only `Alert.__gt__` is); per the
spec it totally orders by `Priority` and breaks ties toward the
first-seen alert, i.e. a fold that replaces the candidate only on a
strictly greater priority, returning `none` on an empty list. -/
def pickHighest (alerts : List Alert) : Option Alert :=
  alerts.foldl
    (fun acc a =>
      match acc with
      | none => some a
      | some b => if Alert.gt a b then some a else some b)
    none

/-! ### Lemmas about `insort` (`bisect.insort`) -/

theorem insort_perm (x : EventId) (l : List EventId) : (insort x l).Perm (x :: l) := by
  induction l with
  | nil => simp [insort]
  | cons y ys ih =>
    by_cases h : x < y
    · simp [insort, h]
    · simp only [insort, if_neg h]
      exact ((ih.cons y).trans (List.Perm.swap x y ys))

theorem mem_insort (a x : EventId) (l : List EventId) :
    a ∈ insort x l ↔ a = x ∨ a ∈ l := by
  rw [(insort_perm x l).mem_iff, List.mem_cons]

theorem count_insort (y x : EventId) (l : List EventId) :
    (insort x l).count y = (x :: l).count y :=
  (insort_perm x l).count_eq y

theorem length_insort (x : EventId) (l : List EventId) :
    (insort x l).length = l.length + 1 := by
  rw [(insort_perm x l).length_eq, List.length_cons]

theorem insort_sorted (x : EventId) (l : List EventId)
    (hl : l.Sorted (· ≤ ·)) : (insort x l).Sorted (· ≤ ·) := by
  induction l with
  | nil => simp [insort]
  | cons y ys ih =>
    rw [List.sorted_cons] at hl
    by_cases h : x < y
    · rw [insort, if_pos h, List.sorted_cons]
      refine ⟨?_, List.sorted_cons.2 hl⟩
      intro b hb
      rcases List.mem_cons.1 hb with hb | hb
      · exact hb ▸ h.le
      · exact h.le.trans (hl.1 b hb)
    · rw [insort, if_neg h, List.sorted_cons]
      refine ⟨?_, ih hl.2⟩
      intro b hb
      rcases (mem_insort b x ys).1 hb with hb | hb
      · exact hb ▸ (not_lt.1 h)
      · exact hl.1 b hb

/-! ### C4: what `add` does to the active list -/

/-- C4 (counterexample): `add()` is not idempotent on a duplicate id —
adding id 5 twice to a fresh event set leaves the active list `[5, 5]`,
which has a duplicate (so it is not strictly ascending) and differs from
the list after a single `add`. -/
theorem add_duplicate_not_idempotent_cex :
    (((Events.init ([] : Catalog Unit)).add 5 false).add 5 false).events = [5, 5] ∧
      (((Events.init ([] : Catalog Unit)).add 5 false).add 5 false).events ≠
        ((Events.init ([] : Catalog Unit)).add 5 false).events ∧
      ¬ ((((Events.init ([] : Catalog Unit)).add 5 false).add 5 false).events.Nodup) := by
  refine ⟨rfl, by decide, by decide⟩

/-- Runs a sequence of `add(id, static)` calls, in order. -/
def runAdds (s : Events) : List (EventId × Bool) → Events
  | [] => s
  | c :: rest => runAdds (s.add c.1 c.2) rest

theorem runAdds_events (s : Events) (calls : List (EventId × Bool)) :
    (runAdds s calls).events = calls.foldl (fun l c => insort c.1 l) s.events := by
  induction calls generalizing s with
  | nil => rfl
  | cons c rest ih => simp [runAdds, ih, Events.add]

/-- C4 (amended): for every sequence of `add()` calls starting from a
state whose active list is sorted, the resulting active list is sorted
in non-decreasing order and is a permutation of the old list plus all
added ids; `add()` is *not* idempotent on a duplicate — each call
inserts one more copy, incrementing the id's multiplicity by one. -/
theorem add_sorted_duplicates_counted (s : Events) (calls : List (EventId × Bool))
    (hs : s.events.Sorted (· ≤ ·)) :
    ((runAdds s calls).events.Sorted (· ≤ ·)) ∧
      ((runAdds s calls).events.Perm (s.events ++ calls.map Prod.fst)) ∧
      (∀ i : EventId, ∀ b : Bool,
        (s.add i b).events.count i = s.events.count i + 1) := by
  refine ⟨?_, ?_, ?_⟩
  · induction calls generalizing s with
    | nil => exact hs
    | cons c rest ih =>
      exact ih (s.add c.1 c.2) (insort_sorted c.1 s.events hs)
  · induction calls generalizing s with
    | nil => simp [runAdds]
    | cons c rest ih =>
      refine (ih (s.add c.1 c.2) (insort_sorted c.1 s.events hs)).trans ?_
      refine ((insort_perm c.1 s.events).append_right _).trans ?_
      exact List.perm_middle.symm
  · intro i b
    show (insort i s.events).count i = s.events.count i + 1
    rw [count_insort, List.count_cons_self]

/-- C4 witness: two adds of id 5 and one of id 3 from a fresh set leave
the sorted list `[3, 5, 5]`; the duplicate count is visible. -/
theorem add_sorted_duplicates_counted_witness :
    (List.Sorted (· ≤ ·) ([] : List EventId)) ∧
      ((runAdds (Events.init ([] : Catalog Unit)) [(5, false), (3, false), (5, true)]).events.Sorted (· ≤ ·)) := by
  have h := add_sorted_duplicates_counted (Events.init ([] : Catalog Unit))
    [(5, false), (3, false), (5, true)] (by simp [Events.init])
  exact ⟨by simp, h.1⟩

/-! ### C5: `add` performs no catalog check -/

/-- C5 (counterexample): id 999 is not a catalog key, yet `add(999)`
inserts it into the active list — unknown ids are not rejected, and the
active set is no longer a subset of the catalog keys. -/
theorem add_unknown_id_inserted_cex :
    (999 ∉ catalogKeys ([(1, [("warning", AlertSpec.fixed
        { alertText1 := "", alertText2 := "", alertStatus := 0, alertSize := 0,
          priority := 0, visualAlert := 0, audibleAlert := 0, duration := 0,
          alertRate := 0, creationDelay := 0, alertType := "", eventType := none })])] :
        Catalog Unit)) ∧
      ((Events.init ([(1, [("warning", AlertSpec.fixed
        { alertText1 := "", alertText2 := "", alertStatus := 0, alertSize := 0,
          priority := 0, visualAlert := 0, audibleAlert := 0, duration := 0,
          alertRate := 0, creationDelay := 0, alertType := "", eventType := none })])] :
        Catalog Unit)).add 999 false).events = [999] := by
  exact ⟨by decide, rfl⟩

/-- C5 (amended): `add()` performs no catalog membership check at all:
every id, catalog key or not, is inserted into the active list (and the
call is total, so the tick completes — but with the unknown id kept, not
dropped, and no diagnostic recorded). -/
theorem add_inserts_any_id (s : Events) (id : EventId) (b : Bool) :
    id ∈ (s.add id b).events := by
  exact (mem_insort id id s.events).2 (Or.inl rfl)

/-! ### Lemmas about dict comprehension / fold patterns -/

theorem lookup_map_value {β γ : Type} (g : EventId → β → γ) (k : EventId)
    (l : List (EventId × β)) :
    List.lookup k (l.map (fun kv => (kv.1, g kv.1 kv.2))) = (List.lookup k l).map (g k) := by
  induction l with
  | nil => rfl
  | cons p t ih =>
    rcases p with ⟨a, b⟩
    by_cases h : k = a
    · subst h
      simp [List.lookup]
    · have hb : (k == a) = false := beq_false_of_ne h
      simp [List.lookup, hb, ih]

theorem foldl_insort_perm (xs l : List EventId) :
    (xs.foldl (fun acc x => insort x acc) l).Perm (l ++ xs) := by
  induction xs generalizing l with
  | nil => simp
  | cons x t ih =>
    refine (ih (insort x l)).trans ?_
    refine ((insort_perm x l).append_right t).trans ?_
    exact List.perm_middle.symm

/-- A minimal fixed alert used by concrete checks. -/
def mkAlert (pr : Nat) (delay : ℚ) : Alert :=
  { alertText1 := "t1", alertText2 := "", alertStatus := 0, alertSize := 1,
    priority := pr, visualAlert := 0, audibleAlert := 0, duration := 20,
    alertRate := 0, creationDelay := delay, alertType := "", eventType := none }

/-! ### C3: `clear()` semantics -/

/-- C3: `clear()` replaces the active list with the static snapshot, and
for every catalog key (given that the counter dict covers the catalog
keys, as `__init__` establishes and `clear` preserves) the new counter
is old value + 1 when the id was active at clear time, else 0. -/
theorem clear_counters_and_active_set {Ctx : Type} (EVENTS : Catalog Ctx) (s : Events)
    (hkeys : ∀ k ∈ catalogKeys EVENTS, ∃ v, List.lookup k s.event_counters = some v) :
    (s.clear).events = s.static_events ∧
      ∀ k ∈ catalogKeys EVENTS, ∃ v, List.lookup k s.event_counters = some v ∧
        List.lookup k (s.clear).event_counters =
          some (if k ∈ s.events then v + 1 else 0) := by
  constructor
  · rfl
  · intro k hk
    obtain ⟨v, hv⟩ := hkeys k hk
    refine ⟨v, hv, ?_⟩
    show List.lookup k (s.event_counters.map
      (fun kv => (kv.1, if kv.1 ∈ s.events then kv.2 + 1 else 0))) = _
    rw [lookup_map_value (fun a n => if a ∈ s.events then n + 1 else 0) k
      s.event_counters, hv]
    rfl

/-- Catalog with keys 1 and 2, for concrete `clear` checks. -/
def catTwo : Catalog Unit :=
  [(1, [("warning", .fixed (mkAlert 2 0))]), (2, [("noEntry", .fixed (mkAlert 2 0))])]

/-- State with id 1 active (counter 3) and id 2 inactive (counter 5). -/
def sClear : Events :=
  { events := [1], static_events := [], event_counters := [(1, 3), (2, 5)] }

/-- C3 witness: on `sClear`, `clear()` empties the active list, bumps
id 1's counter to 4 and resets id 2's counter to 0. -/
theorem clear_counters_and_active_set_witness :
    (sClear.clear).events = sClear.static_events ∧
      ∀ k ∈ catalogKeys catTwo, ∃ v, List.lookup k sClear.event_counters = some v ∧
        List.lookup k (sClear.clear).event_counters =
          some (if k ∈ sClear.events then v + 1 else 0) :=
  clear_counters_and_active_set catTwo sClear (by
    intro k hk
    have hk2 : k = 1 ∨ k = 2 := by simpa [catalogKeys, catTwo] using hk
    rcases hk2 with rfl | rfl
    · exact ⟨3, rfl⟩
    · exact ⟨5, rfl⟩)

/-! ### C7: one `clear()` on a static id S and a non-static id N -/

/-- State with static id 1 (counter 3) and non-static id 2 (counter 7)
both active, for the C7 scenario. -/
def sSN : Events :=
  { events := [1, 2], static_events := [1], event_counters := [(1, 3), (2, 7)] }

/-- C7 (counterexample): with static id 1 and non-static id 2 both
active (counters 3 and 7), a single `clear()` leaves the active list
`[1]` but sets id 2's counter to 8 — it is incremented, not reset to 0,
because id 2 was in the active list at clear time. -/
theorem clear_nonstatic_counter_cex :
    sSN.static_events = [1] ∧ sSN.events = [1, 2] ∧
      (sSN.clear).events = [1] ∧
      List.lookup 2 (sSN.clear).event_counters = some 8 ∧
      List.lookup 2 (sSN.clear).event_counters ≠ some 0 := by
  decide

/-- C7 (amended): a single `clear()` on a set with exactly static id S
and non-static id N active yields an active list `[S]`, increments S's
counter by 1, and also increments N's counter by 1 (N was active at
clear time); N's counter resets to 0 only at the *next* `clear()`, when
N — being non-static and not re-asserted — is no longer active (while
S's counter keeps incrementing). -/
theorem clear_static_nonstatic_counters (s : Events) (S N : EventId) (hne : S ≠ N)
    (hev : s.events = [S, N] ∨ s.events = [N, S])
    (hstat : s.static_events = [S])
    (vS vN : Nat)
    (hS : List.lookup S s.event_counters = some vS)
    (hN : List.lookup N s.event_counters = some vN) :
    (s.clear).events = [S] ∧
      List.lookup S (s.clear).event_counters = some (vS + 1) ∧
      List.lookup N (s.clear).event_counters = some (vN + 1) ∧
      List.lookup S ((s.clear).clear).event_counters = some (vS + 2) ∧
      List.lookup N ((s.clear).clear).event_counters = some 0 := by
  have hSmem : S ∈ s.events := by rcases hev with h | h <;> simp [h]
  have hNmem : N ∈ s.events := by rcases hev with h | h <;> simp [h]
  have hev1 : (s.clear).events = [S] := by
    show s.static_events = [S]
    exact hstat
  have lookS : List.lookup S (s.clear).event_counters = some (vS + 1) := by
    show List.lookup S (s.event_counters.map
      (fun kv => (kv.1, if kv.1 ∈ s.events then kv.2 + 1 else 0))) = _
    rw [lookup_map_value (fun a n => if a ∈ s.events then n + 1 else 0) S
      s.event_counters, hS]
    simp [hSmem]
  have lookN : List.lookup N (s.clear).event_counters = some (vN + 1) := by
    show List.lookup N (s.event_counters.map
      (fun kv => (kv.1, if kv.1 ∈ s.events then kv.2 + 1 else 0))) = _
    rw [lookup_map_value (fun a n => if a ∈ s.events then n + 1 else 0) N
      s.event_counters, hN]
    simp [hNmem]
  refine ⟨hev1, lookS, lookN, ?_, ?_⟩
  · show List.lookup S ((s.clear).event_counters.map
      (fun kv => (kv.1, if kv.1 ∈ (s.clear).events then kv.2 + 1 else 0))) = _
    rw [lookup_map_value (fun a n => if a ∈ (s.clear).events then n + 1 else 0) S
      (s.clear).event_counters, lookS]
    simp [hev1]
  · show List.lookup N ((s.clear).event_counters.map
      (fun kv => (kv.1, if kv.1 ∈ (s.clear).events then kv.2 + 1 else 0))) = _
    rw [lookup_map_value (fun a n => if a ∈ (s.clear).events then n + 1 else 0) N
      (s.clear).event_counters, lookN]
    simp [hev1, Ne.symm hne]

/-- C7 witness: the amended statement evaluated on `sSN`
(S = 1 with counter 3, N = 2 with counter 7). -/
theorem clear_static_nonstatic_counters_witness :
    (sSN.clear).events = [1] ∧
      List.lookup 1 (sSN.clear).event_counters = some 4 ∧
      List.lookup 2 (sSN.clear).event_counters = some 8 ∧
      List.lookup 1 ((sSN.clear).clear).event_counters = some 5 ∧
      List.lookup 2 ((sSN.clear).clear).event_counters = some 0 :=
  clear_static_nonstatic_counters sSN 1 2 (by decide) (Or.inl rfl) rfl 3 7 rfl rfl

/-! ### C8: wire round trip -/

theorem to_msg_names {Ctx : Type} (EVENTS : Catalog Ctx) (s : Events) :
    (s.to_msg EVENTS).map CarEvent.name = s.events := by
  simp [Events.to_msg, List.map_map, Function.comp_def]

/-- C8: decoding the encoded records onto a fresh event set rebuilds the
active set as an unordered collection of ids: for any received records
whose names agree with `to_msg`'s output (the per-record category flags
may have been corrupted arbitrarily in transit — `add_from_msg` reads
only `e.name.raw`), the reconstructed active list is a permutation of
the original one. -/
theorem to_msg_add_from_msg_roundtrip {Ctx Ctx2 : Type} (EVENTS : Catalog Ctx)
    (DECCAT : Catalog Ctx2) (s : Events) (msgs : List CarEvent)
    (hnames : msgs.map CarEvent.name = (s.to_msg EVENTS).map CarEvent.name) :
    ((Events.init DECCAT).add_from_msg msgs).events.Perm s.events := by
  show (msgs.foldl (fun l e => insort e.name l) []).Perm s.events
  have h1 : (msgs.map CarEvent.name).foldl (fun l x => insort x l) ([] : List EventId)
      = msgs.foldl (fun l e => insort e.name l) [] := List.foldl_map _ _ _ _
  rw [← h1, hnames, to_msg_names]
  simpa using foldl_insort_perm s.events []

/-- State with ids 2 and 5 active, for the round-trip check. -/
def sWire : Events :=
  { events := [2, 5], static_events := [], event_counters := [] }

/-- Records with the same names `to_msg` would emit for `sWire` under
`catTwo` but with corrupted category flags. -/
def msgsCorrupted : List CarEvent :=
  [{ name := 2, flags := ["bogus", "warning"] }, { name := 5, flags := ["noEntry"] }]

/-- C8 witness: decoding the flag-corrupted records onto a fresh set
rebuilds exactly the ids {2, 5}. -/
theorem to_msg_add_from_msg_roundtrip_witness :
    ((Events.init catTwo).add_from_msg msgsCorrupted).events.Perm sWire.events :=
  to_msg_add_from_msg_roundtrip catTwo catTwo sWire msgsCorrupted rfl

/-! ### Lookup lemmas -/

theorem lookup_mem {α β : Type} [BEq α] [LawfulBEq α] {k : α} {v : β}
    {l : List (α × β)} (h : List.lookup k l = some v) : (k, v) ∈ l := by
  induction l with
  | nil => cases h
  | cons p t ih =>
    rcases p with ⟨a, b⟩
    by_cases hk : (k == a) = true
    · have hak := eq_of_beq hk
      subst hak
      have hbv : some b = some v := by simpa [List.lookup] using h
      cases hbv
      exact List.mem_cons_self _ _
    · have hk2 : (k == a) = false := by
        cases hkb : k == a
        · rfl
        · exact absurd hkb hk
      simp only [List.lookup, hk2] at h
      exact List.mem_cons_of_mem _ (ih h)

theorem lookup_some_mem_keys {Ctx : Type} {e : EventId}
    {t : List (Category × AlertSpec Ctx)} {EVENTS : Catalog Ctx}
    (h : List.lookup e EVENTS = some t) : e ∈ catalogKeys EVENTS :=
  List.mem_map_of_mem Prod.fst (lookup_mem h)

/-! ### Totality and error propagation of `create_alerts` -/

theorem alertsForEvent_total {Ctx : Type} (callback_args : Ctx) (e : EventId)
    (counters : List (EventId × Nat)) (types : List (Category × AlertSpec Ctx))
    (ename : String) (ets : List Category)
    (hcnt : ∃ c, List.lookup e counters = some c)
    (hcb : ∀ et spec, List.lookup et types = some spec →
      ∃ a, materializeAlert callback_args spec = .ok a) :
    ∃ l, alertsForEvent callback_args e counters types ename ets = .ok l := by
  induction ets with
  | nil => exact ⟨[], rfl⟩
  | cons et rest ih =>
    obtain ⟨tl, htl⟩ := ih
    cases hx : List.lookup et types with
    | none => exact ⟨tl, by simp only [alertsForEvent, hx]; exact htl⟩
    | some spec =>
      obtain ⟨a, ha⟩ := hcb et spec hx
      obtain ⟨c, hc⟩ := hcnt
      by_cases hg : DT_CTRL * ((c : ℚ) + 1) ≥ a.creationDelay
      · exact ⟨stampAlert a ename et :: tl, by
          simp only [alertsForEvent, hx, ha, hc, htl]
          rw [if_pos hg]⟩
      · exact ⟨tl, by
          simp only [alertsForEvent, hx, ha, hc, htl]
          rw [if_neg hg]⟩

theorem alertsGo_total {Ctx : Type} (EVENTS : Catalog Ctx)
    (EVENT_NAME : EventId → String) (counters : List (EventId × Nat))
    (event_types : List Category) (callback_args : Ctx) (evs : List EventId)
    (hgood : ∀ e ∈ evs, ∃ types, List.lookup e EVENTS = some types)
    (hcnt : ∀ e ∈ evs, ∃ c, List.lookup e counters = some c)
    (hcb : ∀ p ∈ EVENTS, ∀ q ∈ p.2, ∃ a, materializeAlert callback_args q.2 = .ok a) :
    ∃ l, alertsGo EVENTS EVENT_NAME counters event_types callback_args evs = .ok l := by
  induction evs with
  | nil => exact ⟨[], rfl⟩
  | cons e es ih =>
    obtain ⟨types, htypes⟩ := hgood e (List.mem_cons_self e es)
    obtain ⟨here, hhere⟩ := alertsForEvent_total callback_args e counters types
      (EVENT_NAME e) event_types (hcnt e (List.mem_cons_self e es))
      (fun et spec hspec => hcb (e, types) (lookup_mem htypes) (et, spec) (lookup_mem hspec))
    obtain ⟨rest, hrest⟩ := ih (fun x hx => hgood x (List.mem_cons_of_mem e hx))
      (fun x hx => hcnt x (List.mem_cons_of_mem e hx))
    exact ⟨here ++ rest, by simp only [alertsGo, htypes, hhere, hrest]⟩

theorem alertsGo_keyError {Ctx : Type} (EVENTS : Catalog Ctx)
    (EVENT_NAME : EventId → String) (counters : List (EventId × Nat))
    (event_types : List Category) (callback_args : Ctx) (evs : List EventId)
    (hbad : ∃ e ∈ evs, List.lookup e EVENTS = none)
    (hcnt : ∀ e ∈ evs, (∃ t, List.lookup e EVENTS = some t) →
      ∃ c, List.lookup e counters = some c)
    (hcb : ∀ p ∈ EVENTS, ∀ q ∈ p.2, ∃ a, materializeAlert callback_args q.2 = .ok a) :
    ∃ k, List.lookup k EVENTS = none ∧
      alertsGo EVENTS EVENT_NAME counters event_types callback_args evs =
        .error (.keyError k) := by
  induction evs with
  | nil =>
    rcases hbad with ⟨e, he, _⟩
    cases he
  | cons e es ih =>
    cases hx : List.lookup e EVENTS with
    | none => exact ⟨e, hx, by simp only [alertsGo, hx]⟩
    | some types =>
      have hbad2 : ∃ x ∈ es, List.lookup x EVENTS = none := by
        rcases hbad with ⟨x, hxmem, hxnone⟩
        rcases List.mem_cons.1 hxmem with rfl | hmem
        · rw [hx] at hxnone
          cases hxnone
        · exact ⟨x, hmem, hxnone⟩
      obtain ⟨here, hhere⟩ := alertsForEvent_total callback_args e counters types
        (EVENT_NAME e) event_types
        (hcnt e (List.mem_cons_self e es) ⟨types, hx⟩)
        (fun et spec hspec => hcb (e, types) (lookup_mem hx) (et, spec) (lookup_mem hspec))
      obtain ⟨k, hk, hrec⟩ := ih hbad2 (fun x hxm hxs => hcnt x (List.mem_cons_of_mem e hxm) hxs)
      exact ⟨k, hk, by simp only [alertsGo, hx, hhere, hrec]⟩

/-! ### C9: unguarded catalog indexing in `create_alerts`; tolerant
`contains` and `to_msg` -/

/-- C9: with a counter dict covering the catalog keys and alert
callbacks that return normally, (i) `create_alerts` raises a `KeyError`
whenever some active id is not a catalog key; (ii) it returns normally
whenever every active id is a catalog key; and, for *every* state
(unknown active ids included), (iii) `contains` is total and an unknown
active id simply contributes `false` through the defaulted
`EVENTS.get(e, {})` lookup, and (iv) `to_msg` is total and emits one
record per active id, unknown ids included. -/
theorem create_alerts_totality {Ctx : Type} (EVENTS : Catalog Ctx)
    (EVENT_NAME : EventId → String) (s : Events) (event_types : List Category)
    (callback_args : Ctx)
    (hcnt : ∀ k ∈ catalogKeys EVENTS, ∃ c, List.lookup k s.event_counters = some c)
    (hcb : ∀ p ∈ EVENTS, ∀ q ∈ p.2, ∃ a, materializeAlert callback_args q.2 = .ok a) :
    ((∃ e ∈ s.events, List.lookup e EVENTS = none) →
        ∃ k, List.lookup k EVENTS = none ∧
          s.create_alerts EVENTS EVENT_NAME event_types callback_args =
            .error (.keyError k)) ∧
      ((∀ e ∈ s.events, ∃ types, List.lookup e EVENTS = some types) →
        ∃ l, s.create_alerts EVENTS EVENT_NAME event_types callback_args = .ok l) ∧
      (∀ et, s.contains EVENTS et = true ↔
        ∃ e ∈ s.events, ∃ types, List.lookup e EVENTS = some types ∧
          ∃ p ∈ types, p.1 = et) ∧
      ((s.to_msg EVENTS).map CarEvent.name = s.events) := by
  refine ⟨?_, ?_, ?_, to_msg_names EVENTS s⟩
  · intro hbad
    exact alertsGo_keyError EVENTS EVENT_NAME s.event_counters event_types callback_args
      s.events hbad (fun e _ ht => hcnt e (lookup_some_mem_keys ht.choose_spec)) hcb
  · intro hgood
    exact alertsGo_total EVENTS EVENT_NAME s.event_counters event_types callback_args
      s.events hgood
      (fun e he => hcnt e (lookup_some_mem_keys (hgood e he).choose_spec)) hcb
  · intro et
    unfold Events.contains
    rw [List.any_eq_true]
    constructor
    · rintro ⟨e, he, hany⟩
      cases h : List.lookup e EVENTS with
      | none =>
        rw [h] at hany
        simp at hany
      | some types =>
        rw [h] at hany
        simp only [Option.getD_some, List.any_eq_true] at hany
        obtain ⟨p, hp, hpe⟩ := hany
        exact ⟨e, he, types, h, p, hp, by simpa using hpe⟩
    · rintro ⟨e, he, types, h, p, hp, hpe⟩
      refine ⟨e, he, ?_⟩
      rw [h]
      simp only [Option.getD_some, List.any_eq_true]
      exact ⟨p, hp, by simpa using hpe⟩

/-- State with known id 1 and unknown id 999 active, counters covering
the `catTwo` keys. -/
def sMixed : Events :=
  { events := [1, 999], static_events := [], event_counters := [(1, 0), (2, 0)] }

/-- C9 witness: under `catTwo`, the unknown active id 999 makes
`create_alerts` raise a `KeyError`. -/
theorem create_alerts_totality_witness :
    ∃ k, List.lookup k catTwo = none ∧
      sMixed.create_alerts catTwo (fun _ => "n") ["enable"] () =
        .error (.keyError k) :=
  (create_alerts_totality catTwo (fun _ => "n") sMixed ["enable"] ()
    (by
      intro k hk
      have hk2 : k = 1 ∨ k = 2 := by simpa [catalogKeys, catTwo] using hk
      rcases hk2 with rfl | rfl
      · exact ⟨0, rfl⟩
      · exact ⟨0, rfl⟩)
    (by
      intro p hp q hq
      rcases List.mem_cons.1 hp with rfl | hp
      · rcases List.mem_cons.1 hq with rfl | hq
        · exact ⟨_, rfl⟩
        · cases hq
      · rcases List.mem_cons.1 hp with rfl | hp
        · rcases List.mem_cons.1 hq with rfl | hq
          · exact ⟨_, rfl⟩
          · cases hq
        · cases hp)).1
    ⟨999, by decide, rfl⟩

/-! ### C6: no error containment at the resolution boundary -/

theorem alertsForEvent_ok_callbacks {Ctx : Type} {callback_args : Ctx} {e : EventId}
    {counters : List (EventId × Nat)} {types : List (Category × AlertSpec Ctx)}
    {ename : String} {ets : List Category} {l : List Alert}
    (hok : alertsForEvent callback_args e counters types ename ets = .ok l) :
    ∀ et ∈ ets, ∀ spec, List.lookup et types = some spec →
      ∃ a, materializeAlert callback_args spec = .ok a := by
  induction ets generalizing l with
  | nil =>
    intro et het
    cases het
  | cons et0 rest ih =>
    intro et het spec hspec
    rcases List.mem_cons.1 het with rfl | hmem
    · cases hmat : materializeAlert callback_args spec with
      | ok a => exact ⟨a, rfl⟩
      | error err =>
        exfalso
        simp only [alertsForEvent, hspec, hmat] at hok
        exact Except.noConfusion hok
    · cases hx : List.lookup et0 types with
      | none =>
        simp only [alertsForEvent, hx] at hok
        exact ih hok et hmem spec hspec
      | some spec0 =>
        cases hmat : materializeAlert callback_args spec0 with
        | error err =>
          exfalso
          simp only [alertsForEvent, hx, hmat] at hok
          exact Except.noConfusion hok
        | ok a0 =>
          cases hc : List.lookup e counters with
          | none =>
            exfalso
            simp only [alertsForEvent, hx, hmat, hc] at hok
            exact Except.noConfusion hok
          | some c =>
            cases hr : alertsForEvent callback_args e counters types ename rest with
            | error err =>
              exfalso
              simp only [alertsForEvent, hx, hmat, hc, hr] at hok
              exact Except.noConfusion hok
            | ok tail => exact ih hr et hmem spec hspec

theorem alertsGo_ok_callbacks {Ctx : Type} {EVENTS : Catalog Ctx}
    {EVENT_NAME : EventId → String} {counters : List (EventId × Nat)}
    {event_types : List Category} {callback_args : Ctx} {evs : List EventId}
    {l : List Alert}
    (hok : alertsGo EVENTS EVENT_NAME counters event_types callback_args evs = .ok l) :
    ∀ e ∈ evs, ∃ types, List.lookup e EVENTS = some types ∧
      ∀ et ∈ event_types, ∀ spec, List.lookup et types = some spec →
        ∃ a, materializeAlert callback_args spec = .ok a := by
  induction evs generalizing l with
  | nil =>
    intro e he
    cases he
  | cons e0 es ih =>
    intro e he
    cases hx : List.lookup e0 EVENTS with
    | none =>
      exfalso
      simp only [alertsGo, hx] at hok
      exact Except.noConfusion hok
    | some types0 =>
      cases hhere : alertsForEvent callback_args e0 counters types0 (EVENT_NAME e0)
          event_types with
      | error err =>
        exfalso
        simp only [alertsGo, hx, hhere] at hok
        exact Except.noConfusion hok
      | ok here =>
        cases hrest : alertsGo EVENTS EVENT_NAME counters event_types callback_args es with
        | error err =>
          exfalso
          simp only [alertsGo, hx, hhere, hrest] at hok
          exact Except.noConfusion hok
        | ok rest =>
          rcases List.mem_cons.1 he with rfl | hmem
          · exact ⟨types0, hx, alertsForEvent_ok_callbacks hhere⟩
          · exact ih hrest e hmem

/-- Catalog whose only entry is a dynamic alert callback that raises. -/
def catBoom : Catalog Unit :=
  [(3, [("warning", .dynamic (fun _ => .error (.exc "boom")))])]

/-- State with event 3 active, counter dict covering `catBoom`. -/
def sBoom : Events :=
  { events := [3], static_events := [], event_counters := [(3, 0)] }

/-- C6 (counterexample): a `Dynamic` alert callback that raises is *not*
caught at the resolution boundary: `create_alerts` on `sBoom`/`catBoom`
returns the callback's own exception — no generic internal-error alert
is substituted and the per-tick resolve call does not return normally. -/
theorem create_alerts_callback_error_cex :
    sBoom.create_alerts catBoom (fun _ => "n") ["warning"] () = .error (.exc "boom") ∧
      ∀ l, sBoom.create_alerts catBoom (fun _ => "n") ["warning"] () ≠ .ok l := by
  refine ⟨rfl, fun l h => ?_⟩
  have h0 : sBoom.create_alerts catBoom (fun _ => "n") ["warning"] () =
      Except.error (PyErr.exc "boom") := rfl
  exact Except.noConfusion (h0.symm.trans h)

/-- C6 (amended): `create_alerts` contains no error handling: whenever a
reachable `Dynamic` callback (an active event, a requested category
present in its catalog entry) raises, the exception propagates and the
resolve call does not return a list at all — errors are not replaced by
a fallback alert. -/
theorem create_alerts_propagates_callback_error {Ctx : Type} (EVENTS : Catalog Ctx)
    (EVENT_NAME : EventId → String) (s : Events) (event_types : List Category)
    (callback_args : Ctx) (e : EventId) (et : Category)
    (types : List (Category × AlertSpec Ctx)) (f : Ctx → Except PyErr Alert)
    (he : e ∈ s.events) (htypes : List.lookup e EVENTS = some types)
    (hspec : List.lookup et types = some (.dynamic f))
    (het : et ∈ event_types) (err : PyErr) (hf : f callback_args = .error err) :
    ∀ l, s.create_alerts EVENTS EVENT_NAME event_types callback_args ≠ .ok l := by
  intro l hok
  obtain ⟨types2, ht2, hcb⟩ := alertsGo_ok_callbacks hok e he
  rw [htypes] at ht2
  cases ht2
  obtain ⟨a, ha⟩ := hcb et het _ hspec
  rw [show materializeAlert callback_args (AlertSpec.dynamic f) = f callback_args
    from rfl, hf] at ha
  cases ha

/-- C6 witness: the amended statement at the concrete failing callback —
`create_alerts` on `sBoom` does not return `.ok []`. -/
theorem create_alerts_propagates_callback_error_witness :
    sBoom.create_alerts catBoom (fun _ => "n") ["warning"] () ≠ .ok [] :=
  create_alerts_propagates_callback_error catBoom (fun _ => "n") sBoom ["warning"] ()
    3 "warning" [("warning", .dynamic (fun _ => .error (.exc "boom")))]
    (fun _ => .error (.exc "boom")) (by decide) rfl rfl (by decide)
    (.exc "boom") rfl []

/-! ### Instrumented resolver: alerts tagged with their originating id

The claims about provenance ("the alert of event `e`", "smallest
originating EventID") need each produced alert paired with the event id
that produced it.  `alertsForEventT`/`alertsGoT` are `alertsForEvent`/
`alertsGo` with that pair recorded and nothing else changed;
`alertsForEventT_spec`/`alertsGoT_spec` prove that forgetting the tags
gives back the source-translated functions. -/

def alertsForEventT {Ctx : Type} (callback_args : Ctx) (e : EventId)
    (counters : List (EventId × Nat)) (types : List (Category × AlertSpec Ctx))
    (ename : String) : List Category → Except PyErr (List (EventId × Alert))
  | [] => .ok []
  | et :: rest =>
    match List.lookup et types with
    | none => alertsForEventT callback_args e counters types ename rest
    | some spec =>
      match materializeAlert callback_args spec with
      | .error err => .error err
      | .ok alert =>
        match List.lookup e counters with
        | none => .error (.keyError e)
        | some cnt =>
          match alertsForEventT callback_args e counters types ename rest with
          | .error err => .error err
          | .ok tail =>
            if DT_CTRL * ((cnt : ℚ) + 1) ≥ alert.creationDelay then
              .ok ((e, stampAlert alert ename et) :: tail)
            else
              .ok tail

def alertsGoT {Ctx : Type} (EVENTS : Catalog Ctx) (EVENT_NAME : EventId → String)
    (counters : List (EventId × Nat)) (event_types : List Category)
    (callback_args : Ctx) : List EventId → Except PyErr (List (EventId × Alert))
  | [] => .ok []
  | e :: es =>
    match List.lookup e EVENTS with
    | none => .error (.keyError e)
    | some types =>
      match alertsForEventT callback_args e counters types (EVENT_NAME e) event_types with
      | .error err => .error err
      | .ok here =>
        match alertsGoT EVENTS EVENT_NAME counters event_types callback_args es with
        | .error err => .error err
        | .ok rest => .ok (here ++ rest)

/-- `create_alerts` with each alert tagged by its originating event id. -/
def Events.create_alertsT {Ctx : Type} (EVENTS : Catalog Ctx)
    (EVENT_NAME : EventId → String) (s : Events) (event_types : List Category)
    (callback_args : Ctx) : Except PyErr (List (EventId × Alert)) :=
  alertsGoT EVENTS EVENT_NAME s.event_counters event_types callback_args s.events

theorem alertsForEventT_spec {Ctx : Type} (callback_args : Ctx) (e : EventId)
    (counters : List (EventId × Nat)) (types : List (Category × AlertSpec Ctx))
    (ename : String) (ets : List Category) :
    alertsForEvent callback_args e counters types ename ets =
      (alertsForEventT callback_args e counters types ename ets).map
        (List.map Prod.snd) := by
  induction ets with
  | nil => rfl
  | cons et rest ih =>
    cases hx : List.lookup et types with
    | none =>
      simp only [alertsForEvent, alertsForEventT, hx]
      exact ih
    | some spec =>
      cases hmat : materializeAlert callback_args spec with
      | error err =>
        simp only [alertsForEvent, alertsForEventT, hx, hmat]
        rfl
      | ok a =>
        cases hc : List.lookup e counters with
        | none =>
          simp only [alertsForEvent, alertsForEventT, hx, hmat, hc]
          rfl
        | some c =>
          cases hr : alertsForEventT callback_args e counters types ename rest with
          | error err =>
            have hr2 : alertsForEvent callback_args e counters types ename rest =
                .error err := by rw [ih, hr]; rfl
            simp only [alertsForEvent, alertsForEventT, hx, hmat, hc, hr, hr2]
            rfl
          | ok tail =>
            have hr2 : alertsForEvent callback_args e counters types ename rest =
                .ok (tail.map Prod.snd) := by rw [ih, hr]; rfl
            by_cases hg : DT_CTRL * ((c : ℚ) + 1) ≥ a.creationDelay
            · simp only [alertsForEvent, alertsForEventT, hx, hmat, hc, hr, hr2]
              rw [if_pos hg, if_pos hg]
              rfl
            · simp only [alertsForEvent, alertsForEventT, hx, hmat, hc, hr, hr2]
              rw [if_neg hg, if_neg hg]
              rfl

theorem alertsGoT_spec {Ctx : Type} (EVENTS : Catalog Ctx)
    (EVENT_NAME : EventId → String) (counters : List (EventId × Nat))
    (event_types : List Category) (callback_args : Ctx) (evs : List EventId) :
    alertsGo EVENTS EVENT_NAME counters event_types callback_args evs =
      (alertsGoT EVENTS EVENT_NAME counters event_types callback_args evs).map
        (List.map Prod.snd) := by
  induction evs with
  | nil => rfl
  | cons e es ih =>
    cases hx : List.lookup e EVENTS with
    | none =>
      simp only [alertsGo, alertsGoT, hx]
      rfl
    | some types =>
      cases hhere : alertsForEventT callback_args e counters types (EVENT_NAME e)
          event_types with
      | error err =>
        have hh2 : alertsForEvent callback_args e counters types (EVENT_NAME e)
            event_types = .error err := by rw [alertsForEventT_spec, hhere]; rfl
        simp only [alertsGo, alertsGoT, hx, hhere, hh2]
        rfl
      | ok here =>
        have hh2 : alertsForEvent callback_args e counters types (EVENT_NAME e)
            event_types = .ok (here.map Prod.snd) := by
          rw [alertsForEventT_spec, hhere]; rfl
        cases hrest : alertsGoT EVENTS EVENT_NAME counters event_types callback_args es with
        | error err =>
          have hr2 : alertsGo EVENTS EVENT_NAME counters event_types callback_args es =
              .error err := by rw [ih, hrest]; rfl
          simp only [alertsGo, alertsGoT, hx, hhere, hh2, hrest, hr2]
          rfl
        | ok rest =>
          have hr2 : alertsGo EVENTS EVENT_NAME counters event_types callback_args es =
              .ok (rest.map Prod.snd) := by rw [ih, hrest]; rfl
          simp only [alertsGo, alertsGoT, hx, hhere, hh2, hrest, hr2]
          rw [← List.map_append]
          rfl

theorem create_alertsT_spec {Ctx : Type} (EVENTS : Catalog Ctx)
    (EVENT_NAME : EventId → String) (s : Events) (event_types : List Category)
    (callback_args : Ctx) :
    s.create_alerts EVENTS EVENT_NAME event_types callback_args =
      (s.create_alertsT EVENTS EVENT_NAME event_types callback_args).map
        (List.map Prod.snd) :=
  alertsGoT_spec EVENTS EVENT_NAME s.event_counters event_types callback_args s.events

/-- Proof-layer predicate: for event `e` with catalog entry `types`,
requested category `et` produces exactly the stamped alert `x` past the
delay gate (mirrors one pass of the inner `create_alerts` loop body). -/
def ProducesAlert {Ctx : Type} (callback_args : Ctx) (counters : List (EventId × Nat))
    (types : List (Category × AlertSpec Ctx)) (ename : String) (e : EventId)
    (et : Category) (x : Alert) : Prop :=
  ∃ spec alert cnt,
    List.lookup et types = some spec ∧
    materializeAlert callback_args spec = .ok alert ∧
    List.lookup e counters = some cnt ∧
    DT_CTRL * ((cnt : ℚ) + 1) ≥ alert.creationDelay ∧
    x = stampAlert alert ename et

theorem alertsForEventT_mem {Ctx : Type} {callback_args : Ctx} {e : EventId}
    {counters : List (EventId × Nat)} {types : List (Category × AlertSpec Ctx)}
    {ename : String} {ets : List Category} {l : List (EventId × Alert)}
    (hok : alertsForEventT callback_args e counters types ename ets = .ok l)
    (e' : EventId) (x : Alert) :
    (e', x) ∈ l ↔ e' = e ∧ ∃ et ∈ ets,
      ProducesAlert callback_args counters types ename e et x := by
  induction ets generalizing l with
  | nil =>
    have hl : l = [] := by
      have : Except.ok ([] : List (EventId × Alert)) = .ok l := hok
      cases this
      rfl
    subst hl
    simp
  | cons et0 rest ih =>
    cases hx : List.lookup et0 types with
    | none =>
      simp only [alertsForEventT, hx] at hok
      rw [ih hok]
      constructor
      · rintro ⟨rfl, et, hmem, hp⟩
        exact ⟨rfl, et, List.mem_cons_of_mem et0 hmem, hp⟩
      · rintro ⟨rfl, et, hmem, hp⟩
        rcases List.mem_cons.1 hmem with rfl | hmem2
        · rcases hp with ⟨spec, alert, cnt, hs, _⟩
          rw [hx] at hs
          cases hs
        · exact ⟨rfl, et, hmem2, hp⟩
    | some spec0 =>
      cases hmat : materializeAlert callback_args spec0 with
      | error err =>
        exfalso
        simp only [alertsForEventT, hx, hmat] at hok
        exact Except.noConfusion hok
      | ok a0 =>
        cases hc : List.lookup e counters with
        | none =>
          exfalso
          simp only [alertsForEventT, hx, hmat, hc] at hok
          exact Except.noConfusion hok
        | some c =>
          cases hr : alertsForEventT callback_args e counters types ename rest with
          | error err =>
            exfalso
            simp only [alertsForEventT, hx, hmat, hc, hr] at hok
            exact Except.noConfusion hok
          | ok tail =>
            by_cases hg : DT_CTRL * ((c : ℚ) + 1) ≥ a0.creationDelay
            · simp only [alertsForEventT, hx, hmat, hc, hr] at hok
              rw [if_pos hg] at hok
              cases hok
              rw [List.mem_cons, ih hr]
              constructor
              · rintro (hhead | ⟨rfl, et, hmem, hp⟩)
                · have he' : e' = e := congrArg Prod.fst hhead
                  have hxs : x = stampAlert a0 ename et0 := congrArg Prod.snd hhead
                  subst he'
                  subst hxs
                  exact ⟨rfl, et0, List.mem_cons_self et0 rest,
                    ⟨spec0, a0, c, hx, hmat, hc, hg, rfl⟩⟩
                · exact ⟨rfl, et, List.mem_cons_of_mem et0 hmem, hp⟩
              · rintro ⟨rfl, et, hmem, hp⟩
                rcases List.mem_cons.1 hmem with rfl | hmem2
                · left
                  rcases hp with ⟨spec, alert, cnt, hs, hm, hcc, hg2, hx2⟩
                  rw [hx] at hs
                  cases hs
                  rw [hmat] at hm
                  cases hm
                  rw [hx2]
                · right
                  exact ⟨rfl, et, hmem2, hp⟩
            · simp only [alertsForEventT, hx, hmat, hc, hr] at hok
              rw [if_neg hg] at hok
              cases hok
              rw [ih hr]
              constructor
              · rintro ⟨rfl, et, hmem, hp⟩
                exact ⟨rfl, et, List.mem_cons_of_mem et0 hmem, hp⟩
              · rintro ⟨rfl, et, hmem, hp⟩
                rcases List.mem_cons.1 hmem with rfl | hmem2
                · exfalso
                  rcases hp with ⟨spec, alert, cnt, hs, hm, hcc, hg2, hx2⟩
                  rw [hx] at hs
                  cases hs
                  rw [hmat] at hm
                  cases hm
                  rw [hc] at hcc
                  cases hcc
                  exact hg hg2
                · exact ⟨rfl, et, hmem2, hp⟩

theorem alertsGoT_mem {Ctx : Type} {EVENTS : Catalog Ctx}
    {EVENT_NAME : EventId → String} {counters : List (EventId × Nat)}
    {event_types : List Category} {callback_args : Ctx} {evs : List EventId}
    {l : List (EventId × Alert)}
    (hok : alertsGoT EVENTS EVENT_NAME counters event_types callback_args evs = .ok l)
    (e : EventId) (x : Alert) :
    (e, x) ∈ l ↔ e ∈ evs ∧ ∃ types, List.lookup e EVENTS = some types ∧
      ∃ et ∈ event_types,
        ProducesAlert callback_args counters types (EVENT_NAME e) e et x := by
  induction evs generalizing l with
  | nil =>
    have hl : l = [] := by
      have : Except.ok ([] : List (EventId × Alert)) = .ok l := hok
      cases this
      rfl
    subst hl
    simp
  | cons e0 es ih =>
    cases hx : List.lookup e0 EVENTS with
    | none =>
      exfalso
      simp only [alertsGoT, hx] at hok
      exact Except.noConfusion hok
    | some types0 =>
      cases hhere : alertsForEventT callback_args e0 counters types0 (EVENT_NAME e0)
          event_types with
      | error err =>
        exfalso
        simp only [alertsGoT, hx, hhere] at hok
        exact Except.noConfusion hok
      | ok here =>
        cases hrest : alertsGoT EVENTS EVENT_NAME counters event_types callback_args es with
        | error err =>
          exfalso
          simp only [alertsGoT, hx, hhere, hrest] at hok
          exact Except.noConfusion hok
        | ok rest =>
          simp only [alertsGoT, hx, hhere, hrest] at hok
          cases hok
          rw [List.mem_append, alertsForEventT_mem hhere e x, ih hrest]
          constructor
          · rintro (⟨rfl, hP⟩ | ⟨hmem, hQ⟩)
            · exact ⟨List.mem_cons_self e es, types0, hx, hP⟩
            · exact ⟨List.mem_cons_of_mem e0 hmem, hQ⟩
          · rintro ⟨hmem, types, ht, hP⟩
            rcases List.mem_cons.1 hmem with rfl | hmem2
            · left
              rw [hx] at ht
              cases ht
              exact ⟨rfl, hP⟩
            · right
              exact ⟨hmem2, types, ht, hP⟩

/-! ### C1: delay gating -/

/-- C1: for an active event `e` whose catalog entry maps requested
category `et` to alert `a`, the resolver output contains `e`'s stamped
alert exactly when `DT_CTRL * (counter + 1) ≥ a.creationDelay`; the
plain `create_alerts` output is the tag-erased tagged output; and the
gate is equivalent to `counter + 1 ≥ ⌈creationDelay / DT_CTRL⌉`, so for
an event asserted continuously from its first tick (where the counter
at tick `t` is `t - 1`) the alert is absent before tick
`⌈d / DT_CTRL⌉` and present from exactly that tick onward. -/
theorem create_alerts_delay_gating {Ctx : Type} (EVENTS : Catalog Ctx)
    (EVENT_NAME : EventId → String) (s : Events) (event_types : List Category)
    (callback_args : Ctx) (e : EventId) (et : Category)
    (types : List (Category × AlertSpec Ctx)) (a : Alert) (cnt : Nat)
    (tl : List (EventId × Alert))
    (he : e ∈ s.events)
    (htypes : List.lookup e EVENTS = some types)
    (hspec : List.lookup et types = some (.fixed a))
    (het : et ∈ event_types)
    (hcnt : List.lookup e s.event_counters = some cnt)
    (hok : s.create_alertsT EVENTS EVENT_NAME event_types callback_args = .ok tl) :
    ((e, stampAlert a (EVENT_NAME e) et) ∈ tl ↔
        DT_CTRL * ((cnt : ℚ) + 1) ≥ a.creationDelay) ∧
      (s.create_alerts EVENTS EVENT_NAME event_types callback_args =
        .ok (tl.map Prod.snd)) ∧
      (DT_CTRL * ((cnt : ℚ) + 1) ≥ a.creationDelay ↔
        ⌈a.creationDelay / DT_CTRL⌉ ≤ (cnt : ℤ) + 1) := by
  have hDT : (0 : ℚ) < DT_CTRL := by norm_num [DT_CTRL]
  refine ⟨?_, ?_, ?_⟩
  · rw [alertsGoT_mem hok e (stampAlert a (EVENT_NAME e) et)]
    constructor
    · rintro ⟨_, types2, ht2, et2, het2, spec, alert, cnt2, hs, hm, hcc, hg, hx2⟩
      rw [htypes] at ht2
      cases ht2
      have hetx : some et2 = some et := congrArg Alert.eventType hx2.symm
      cases hetx
      rw [hspec] at hs
      cases hs
      have hm2 : a = alert := by
        have : Except.ok (ε := PyErr) a = .ok alert := hm
        cases this
        rfl
      rw [hcnt] at hcc
      cases hcc
      rw [← hm2] at hg
      exact hg
    · intro hg
      exact ⟨he, types, htypes, et, het,
        ⟨.fixed a, a, cnt, hspec, rfl, hcnt, hg, rfl⟩⟩
  · rw [create_alertsT_spec, hok]
    rfl
  · rw [ge_iff_le, Int.ceil_le, div_le_iff₀ hDT]
    push_cast
    rw [mul_comm]

/-- Catalog with one event (id 7) whose `warning` alert has a creation
delay of 0.02 s, i.e. two ticks. -/
def catDelay : Catalog Unit := [(7, [("warning", .fixed (mkAlert 2 (2/100)))])]

/-- State at the second tick of continuous activation of event 7
(counter already advanced once by `clear`). -/
def sDelay : Events := { events := [7], static_events := [], event_counters := [(7, 1)] }

/-- C1 witness: with `creationDelay = 0.02` and counter 1 (second
consecutive tick), the gate `0.01 * (1 + 1) ≥ 0.02` passes and event
7's stamped warning alert is in the resolver output. -/
theorem create_alerts_delay_gating_witness :
    (7, stampAlert (mkAlert 2 (2/100)) "e7" "warning") ∈
      [(7, stampAlert (mkAlert 2 (2/100)) "e7" "warning")] ∧
      sDelay.create_alerts catDelay (fun _ => "e7") ["warning"] () =
        .ok [stampAlert (mkAlert 2 (2/100)) "e7" "warning"] := by
  have hok : sDelay.create_alertsT catDelay (fun _ => "e7") ["warning"] () =
      .ok [(7, stampAlert (mkAlert 2 (2/100)) "e7" "warning")] := by
    simp only [Events.create_alertsT, alertsGoT, alertsForEventT, materializeAlert,
      List.lookup, sDelay, catDelay]
    norm_num [DT_CTRL, mkAlert]
  have h := create_alerts_delay_gating catDelay (fun _ => "e7") sDelay ["warning"] ()
    7 "warning" [("warning", .fixed (mkAlert 2 (2/100)))] (mkAlert 2 (2/100)) 1
    [(7, stampAlert (mkAlert 2 (2/100)) "e7" "warning")]
    (by decide) rfl rfl (by decide) rfl hok
  exact ⟨h.1.2 (by norm_num [mkAlert, DT_CTRL]), h.2.1⟩

/-! ### C2: arbitration (`pickHighest`) -/

theorem alert_gt_iff (a b : Alert) : Alert.gt a b = true ↔ b.priority < a.priority := by
  simp [Alert.gt]

/-- Accumulator form of `pickHighest`'s fold, for reasoning: the current
best alert `b` is replaced only by a strictly higher priority. -/
def chooseFrom (b : Alert) : List Alert → Alert
  | [] => b
  | a :: l => chooseFrom (if Alert.gt a b then a else b) l

theorem pickHighest_cons (a : Alert) (l : List Alert) :
    pickHighest (a :: l) = some (chooseFrom a l) := by
  show List.foldl _ (some a) l = _
  induction l generalizing a with
  | nil => rfl
  | cons x t ih =>
    show List.foldl _ (if Alert.gt x a then some x else some a) t =
      some (chooseFrom (if Alert.gt x a then x else a) t)
    by_cases h : Alert.gt x a = true
    · rw [if_pos h, if_pos h]
      exact ih x
    · rw [if_neg h, if_neg h]
      exact ih a

theorem chooseFrom_mem (l : List Alert) : ∀ b, chooseFrom b l ∈ b :: l := by
  induction l with
  | nil =>
    intro b
    exact List.mem_cons_self b []
  | cons x t ih =>
    intro b
    rw [chooseFrom]
    by_cases h : Alert.gt x b = true
    · rw [if_pos h]
      rcases List.mem_cons.1 (ih x) with h1 | h1
      · rw [h1]
        exact List.mem_cons_of_mem b (List.mem_cons_self x t)
      · exact List.mem_cons_of_mem b (List.mem_cons_of_mem x h1)
    · rw [if_neg h]
      rcases List.mem_cons.1 (ih b) with h1 | h1
      · rw [h1]
        exact List.mem_cons_self b _
      · exact List.mem_cons_of_mem b (List.mem_cons_of_mem x h1)

theorem chooseFrom_le (l : List Alert) :
    ∀ b, ∀ x ∈ b :: l, x.priority ≤ (chooseFrom b l).priority := by
  induction l with
  | nil =>
    intro b x hx
    rcases List.mem_cons.1 hx with rfl | h
    · exact le_refl _
    · cases h
  | cons y t ih =>
    intro b x hx
    rw [chooseFrom]
    rcases List.mem_cons.1 hx with rfl | hx2
    · by_cases h : Alert.gt y x = true
      · rw [if_pos h]
        exact le_of_lt (lt_of_lt_of_le ((alert_gt_iff y x).1 h)
          (ih y y (List.mem_cons_self y t)))
      · rw [if_neg h]
        exact ih x x (List.mem_cons_self x t)
    · rcases List.mem_cons.1 hx2 with rfl | hx3
      · by_cases h : Alert.gt x b = true
        · rw [if_pos h]
          exact ih x x (List.mem_cons_self x t)
        · rw [if_neg h]
          have hle : x.priority ≤ b.priority := not_lt.1 fun hlt =>
            h ((alert_gt_iff x b).2 hlt)
          exact le_trans hle (ih b b (List.mem_cons_self b t))
      · by_cases h : Alert.gt y b = true
        · rw [if_pos h]
          exact ih y x (List.mem_cons_of_mem y hx3)
        · rw [if_neg h]
          exact ih b x (List.mem_cons_of_mem b hx3)

theorem chooseFrom_first (l : List Alert) : ∀ b,
    chooseFrom b l = b ∨
      ∃ l₁ l₂, l = l₁ ++ chooseFrom b l :: l₂ ∧
        b.priority < (chooseFrom b l).priority ∧
        ∀ x ∈ l₁, x.priority < (chooseFrom b l).priority := by
  induction l with
  | nil =>
    intro b
    exact Or.inl rfl
  | cons y t ih =>
    intro b
    rw [chooseFrom]
    by_cases h : Alert.gt y b = true
    · rw [if_pos h]
      have hby : b.priority < y.priority := (alert_gt_iff y b).1 h
      rcases ih y with h1 | ⟨t₁, t₂, ht, hy, hall⟩
      · refine Or.inr ⟨[], t, ?_, ?_, ?_⟩
        · rw [h1, List.nil_append]
        · rw [h1]
          exact hby
        · intro x hx
          cases hx
      · refine Or.inr ⟨y :: t₁, t₂, ?_, lt_trans hby hy, ?_⟩
        · rw [List.cons_append, ← ht]
        · intro x hx
          rcases List.mem_cons.1 hx with rfl | hx2
          · exact hy
          · exact hall x hx2
    · rw [if_neg h]
      rcases ih b with h1 | ⟨t₁, t₂, ht, hb, hall⟩
      · exact Or.inl h1
      · refine Or.inr ⟨y :: t₁, t₂, ?_, hb, ?_⟩
        · rw [List.cons_append, ← ht]
        · intro x hx
          rcases List.mem_cons.1 hx with rfl | hx2
          · have hyb : x.priority ≤ b.priority := not_lt.1 fun hlt =>
              h ((alert_gt_iff x b).2 hlt)
            exact lt_of_le_of_lt hyb hb
          · exact hall x hx2

theorem pairwise_fst_of_all_eq {l : List (EventId × Alert)} {e : EventId}
    (h : ∀ x ∈ l, x.1 = e) : l.Pairwise (fun p q => p.1 ≤ q.1) := by
  induction l with
  | nil => exact List.Pairwise.nil
  | cons p t ih =>
    refine List.Pairwise.cons ?_ (ih fun x hx => h x (List.mem_cons_of_mem p hx))
    intro q hq
    rw [h p (List.mem_cons_self p t), h q (List.mem_cons_of_mem p hq)]

theorem alertsGoT_pairwise_fst {Ctx : Type} {EVENTS : Catalog Ctx}
    {EVENT_NAME : EventId → String} {counters : List (EventId × Nat)}
    {event_types : List Category} {callback_args : Ctx} {evs : List EventId}
    {l : List (EventId × Alert)}
    (hsorted : evs.Sorted (· ≤ ·))
    (hok : alertsGoT EVENTS EVENT_NAME counters event_types callback_args evs = .ok l) :
    l.Pairwise (fun p q => p.1 ≤ q.1) := by
  induction evs generalizing l with
  | nil =>
    have hl : l = [] := by
      have : Except.ok ([] : List (EventId × Alert)) = .ok l := hok
      cases this
      rfl
    subst hl
    exact List.Pairwise.nil
  | cons e0 es ih =>
    rw [List.sorted_cons] at hsorted
    cases hx : List.lookup e0 EVENTS with
    | none =>
      exfalso
      simp only [alertsGoT, hx] at hok
      exact Except.noConfusion hok
    | some types0 =>
      cases hhere : alertsForEventT callback_args e0 counters types0 (EVENT_NAME e0)
          event_types with
      | error err =>
        exfalso
        simp only [alertsGoT, hx, hhere] at hok
        exact Except.noConfusion hok
      | ok here =>
        cases hrest : alertsGoT EVENTS EVENT_NAME counters event_types callback_args es with
        | error err =>
          exfalso
          simp only [alertsGoT, hx, hhere, hrest] at hok
          exact Except.noConfusion hok
        | ok rest =>
          simp only [alertsGoT, hx, hhere, hrest] at hok
          cases hok
          rw [List.pairwise_append]
          have hfst : ∀ x ∈ here, x.1 = e0 := by
            intro x hx2
            have := (alertsForEventT_mem hhere x.1 x.2).1 (by simpa using hx2)
            exact this.1
          refine ⟨pairwise_fst_of_all_eq hfst, ih hsorted.2 hrest, ?_⟩
          intro a ha b hb
          rw [hfst a ha]
          have hbmem : b.1 ∈ es := by
            have := (alertsGoT_mem hrest b.1 b.2).1 (by simpa using hb)
            exact this.1
          exact hsorted.1 b.1 hbmem

/-- C2 (`pickHighest` modelled from spec §4.4 — only `Alert.__gt__`
exists in events.py): over the resolver's tagged output from a state
with ascending active ids, `pickHighest` (on the tag-erased alerts)
returns an alert of maximal priority; it is the first-seen alert at that
priority — everything before it in resolver order is strictly lower —
and its originating EventID is ≤ the id of every alert tying at the
maximal priority.  Determinism across repeated runs is immediate since
`pickHighest` is a pure function of its input. -/
theorem pickHighest_max_first_min_id {Ctx : Type} (EVENTS : Catalog Ctx)
    (EVENT_NAME : EventId → String) (s : Events) (event_types : List Category)
    (callback_args : Ctx) (tl : List (EventId × Alert))
    (hsorted : s.events.Sorted (· ≤ ·))
    (hok : s.create_alertsT EVENTS EVENT_NAME event_types callback_args = .ok tl)
    (hne : tl ≠ []) :
    ∃ t₁ em t₂, tl = t₁ ++ em :: t₂ ∧
      pickHighest (tl.map Prod.snd) = some em.2 ∧
      (∀ x ∈ tl, x.2.priority ≤ em.2.priority) ∧
      (∀ x ∈ t₁, x.2.priority < em.2.priority) ∧
      (∀ x ∈ tl, x.2.priority = em.2.priority → em.1 ≤ x.1) := by
  have hpw : tl.Pairwise (fun p q => p.1 ≤ q.1) := alertsGoT_pairwise_fst hsorted hok
  cases tl with
  | nil => exact absurd rfl hne
  | cons p tt =>
    have hpick := pickHighest_cons p.2 (tt.map Prod.snd)
    have hmax : ∀ x ∈ p :: tt,
        x.2.priority ≤ (chooseFrom p.2 (tt.map Prod.snd)).priority := by
      intro x hx
      apply chooseFrom_le
      rcases List.mem_cons.1 hx with rfl | hx2
      · exact List.mem_cons_self _ _
      · exact List.mem_cons_of_mem _ (List.mem_map_of_mem Prod.snd hx2)
    rcases chooseFrom_first (tt.map Prod.snd) p.2 with h1 | ⟨l₁, l₂, hsplit, hltb, hall⟩
    · refine ⟨[], p, tt, rfl, ?_, ?_, ?_, ?_⟩
      · rw [List.map_cons, hpick, h1]
      · intro x hx
        rw [← h1]
        exact hmax x hx
      · intro x hx
        cases hx
      · intro x hx _
        rcases List.mem_cons.1 hx with rfl | hx2
        · exact le_refl _
        · exact (List.pairwise_cons.1 hpw).1 x hx2
    · rw [List.map_eq_append_iff] at hsplit
      obtain ⟨u₁, u₂, htt, hu₁, hu₂⟩ := hsplit
      rw [List.map_eq_cons_iff] at hu₂
      obtain ⟨em, u₂x, hu₂e, hem, hu₂x⟩ := hu₂
      subst hu₂e
      subst htt
      have hltb2 : p.2.priority < em.2.priority := by
        rw [hem]
        exact hltb
      have hpwTail := List.pairwise_cons.1 hpw
      have hpwApp := List.pairwise_append.1 hpwTail.2
      have hEm := (List.pairwise_cons.1 hpwApp.2.1).1
      refine ⟨p :: u₁, em, u₂x, by rw [List.cons_append], ?_, ?_, ?_, ?_⟩
      · rw [List.map_cons, hpick, hem]
      · intro x hx
        rw [hem]
        exact hmax x hx
      · intro x hx
        rcases List.mem_cons.1 hx with rfl | hx2
        · exact hltb2
        · rw [hem]
          refine hall x.2 ?_
          rw [← hu₁]
          exact List.mem_map_of_mem Prod.snd hx2
      · intro x hx hpri
        rcases List.mem_cons.1 hx with rfl | hx2
        · exact absurd hpri.symm (ne_of_gt hltb2)
        · rcases List.mem_append.1 hx2 with hx3 | hx3
          · exfalso
            have hxl : x.2.priority < em.2.priority := by
              rw [hem]
              refine hall x.2 ?_
              rw [← hu₁]
              exact List.mem_map_of_mem Prod.snd hx3
            exact absurd hpri (ne_of_lt hxl)
          · rcases List.mem_cons.1 hx3 with rfl | hx4
            · exact le_refl _
            · exact hEm x hx4

/-- Catalog with three events carrying warning alerts of priorities
LOW (2), HIGH (4), HIGH (4) and no creation delay. -/
def catPrio : Catalog Unit :=
  [(1, [("warning", .fixed (mkAlert 2 0))]),
   (2, [("warning", .fixed (mkAlert 4 0))]),
   (3, [("warning", .fixed (mkAlert 4 0))])]

/-- State with events 1, 2, 3 active and zero counters. -/
def sPrio : Events :=
  { events := [1, 2, 3], static_events := [],
    event_counters := [(1, 0), (2, 0), (3, 0)] }

/-- Tagged resolver output for `sPrio` under `catPrio`. -/
def tlPrio : List (EventId × Alert) :=
  [(1, stampAlert (mkAlert 2 0) "n" "warning"),
   (2, stampAlert (mkAlert 4 0) "n" "warning"),
   (3, stampAlert (mkAlert 4 0) "n" "warning")]

/-- C2 witness: the spec scenario — priorities [LOW, HIGH, HIGH] — on
concrete events 1, 2, 3: `pickHighest` returns a maximal-priority alert
that is first-seen and whose originating id is minimal among the ties
(here, the HIGH alert of event 2). -/
theorem pickHighest_max_first_min_id_witness :
    ∃ t₁ em t₂, tlPrio = t₁ ++ em :: t₂ ∧
      pickHighest (tlPrio.map Prod.snd) = some em.2 ∧
      (∀ x ∈ tlPrio, x.2.priority ≤ em.2.priority) ∧
      (∀ x ∈ t₁, x.2.priority < em.2.priority) ∧
      (∀ x ∈ tlPrio, x.2.priority = em.2.priority → em.1 ≤ x.1) := by
  have hok : sPrio.create_alertsT catPrio (fun _ => "n") ["warning"] () = .ok tlPrio := by
    simp only [Events.create_alertsT, alertsGoT, alertsForEventT, materializeAlert,
      List.lookup, sPrio, catPrio, tlPrio, Nat.reduceBEq, String.reduceBEq]
    norm_num [DT_CTRL, mkAlert]
  exact pickHighest_max_first_min_id catPrio (fun _ => "n") sPrio ["warning"] ()
    tlPrio (by decide) hok (by decide)

/-! ### C10: the counter dict's key set is invariant -/

/-- One mutating operation on an `Events` value (`contains`,
`create_alerts` and `to_msg` are queries — they return fresh data and
leave the state, in particular `event_counters`, untouched). -/
inductive Op where
  | add (id : EventId) (static : Bool)
  | clear
  | addFromMsg (msgs : List CarEvent)
deriving DecidableEq, Repr

def runOp (s : Events) : Op → Events
  | .add id b => s.add id b
  | .clear => s.clear
  | .addFromMsg m => s.add_from_msg m

def runOps (s : Events) : List Op → Events
  | [] => s
  | op :: rest => runOps (runOp s op) rest

theorem lookup_const_zero (id : EventId) (l : List EventId) (h : id ∈ l) :
    List.lookup id (l.map (fun k => (k, (0 : Nat)))) = some 0 := by
  induction l with
  | nil => cases h
  | cons a t ih =>
    by_cases hid : id = a
    · subst hid
      simp [List.lookup]
    · have hb : (id == a) = false := beq_false_of_ne hid
      rcases List.mem_cons.1 h with rfl | h2
      · exact absurd rfl hid
      · simp only [List.map_cons, List.lookup, hb]
        exact ih h2

theorem runOps_counter_zero (id : EventId) (ops : List Op) :
    ∀ s : Events, List.lookup id s.event_counters = some 0 →
      (∀ l₁ l₂, ops = l₁ ++ Op.clear :: l₂ → id ∉ (runOps s l₁).events) →
      List.lookup id (runOps s ops).event_counters = some 0 := by
  induction ops with
  | nil =>
    intro s h0 _
    exact h0
  | cons op rest ih =>
    intro s h0 hcl
    show List.lookup id (runOps (runOp s op) rest).event_counters = some 0
    refine ih (runOp s op) ?_ ?_
    · cases op with
      | add i b => exact h0
      | addFromMsg m => exact h0
      | clear =>
        have hid : id ∉ s.events := hcl [] rest rfl
        show List.lookup id (s.event_counters.map
          (fun kv => (kv.1, if kv.1 ∈ s.events then kv.2 + 1 else 0))) = some 0
        rw [lookup_map_value (fun a n => if a ∈ s.events then n + 1 else 0) id
          s.event_counters, h0]
        simp [hid]
    · intro l₁ l₂ heq
      exact hcl (op :: l₁) l₂ (by rw [List.cons_append, ← heq])

/-- C10: the counter dict's key set is exactly the catalog's key set at
construction (all counters 0), stays unchanged under every mutating
operation (`add`, `clear`, `add_from_msg`), and an id that is never in
the active set at any `clear()` still has counter 0 after any sequence
of operations from a fresh state. -/
theorem counter_keys_invariant {Ctx : Type} (EVENTS : Catalog Ctx) (id : EventId)
    (ops : List Op)
    (hid : id ∈ catalogKeys EVENTS)
    (hnever : ∀ l₁ l₂, ops = l₁ ++ Op.clear :: l₂ →
      id ∉ (runOps (Events.init EVENTS) l₁).events) :
    ((Events.init EVENTS).event_counters.map Prod.fst = catalogKeys EVENTS) ∧
      (∀ kv ∈ (Events.init EVENTS).event_counters, kv.2 = 0) ∧
      (∀ s : Events, ∀ op : Op,
        (runOp s op).event_counters.map Prod.fst = s.event_counters.map Prod.fst) ∧
      List.lookup id (runOps (Events.init EVENTS) ops).event_counters = some 0 := by
  refine ⟨?_, ?_, ?_, ?_⟩
  · show ((catalogKeys EVENTS).map (fun k => (k, 0))).map Prod.fst = catalogKeys EVENTS
    rw [List.map_map]
    simp [Function.comp_def]
  · intro kv hkv
    have := List.mem_map.1 hkv
    obtain ⟨k, _, hk⟩ := this
    rw [← hk]
  · intro s op
    cases op with
    | add i b => rfl
    | addFromMsg m => rfl
    | clear =>
      show (s.event_counters.map
        (fun kv => (kv.1, if kv.1 ∈ s.events then kv.2 + 1 else 0))).map Prod.fst = _
      rw [List.map_map]
      simp
  · exact runOps_counter_zero id ops (Events.init EVENTS)
      (lookup_const_zero id (catalogKeys EVENTS) hid) hnever

/-- C10 witness: under `catTwo`, running `add(1); clear()` from a fresh
state keeps the counter of id 2 (never active) at 0, and the key-set
facts hold. -/
theorem counter_keys_invariant_witness :
    ((Events.init catTwo).event_counters.map Prod.fst = catalogKeys catTwo) ∧
      (∀ kv ∈ (Events.init catTwo).event_counters, kv.2 = 0) ∧
      (∀ s : Events, ∀ op : Op,
        (runOp s op).event_counters.map Prod.fst = s.event_counters.map Prod.fst) ∧
      List.lookup 2 (runOps (Events.init catTwo)
        [Op.add 1 false, Op.clear]).event_counters = some 0 :=
  counter_keys_invariant catTwo 2 [Op.add 1 false, Op.clear] (by decide)
    (by
      intro l₁ l₂ heq
      cases l₁ with
      | nil =>
        injection heq with h1 h2
        exact Op.noConfusion h1
      | cons a t =>
        injection heq with h1 h2
        subst h1
        cases t with
        | nil =>
          show 2 ∉ (runOps (Events.init catTwo) [Op.add 1 false]).events
          decide
        | cons b t2 =>
          injection h2 with h3 h4
          have hlen := congrArg List.length h4
          simp at hlen
          omega)
